import Mathlib

/-!
Verification of the kubemcp pod-query server (src/main.go).

The repository ships two variants of `main.go`; the later one (the variant
that defines `deleteUnnecessaryFieldsFromPodSpec`, validates `labelSelector`
and includes the underlying error message in failure results) is the one the
spec designates as canonical (spec section 9, final note), and it is the one
embedded here.  Go maps (`map[string]string`) are modelled as association
lists with first-match lookup; a possibly-nil Go map is an `Option` of such a
list, and Go's `delete`, which is a no-op on a nil map, is `goMapDelete`.
The Kubernetes cluster client is an oracle passed to each handler; each
handler additionally reports whether it invoked the oracle.
-/

set_option autoImplicit false

namespace KubeMCP

/-- Go `map[string]string` as an association list; lookup takes the first
matching key, matching Go map semantics when keys are unique. -/
abbrev GoStrMap := List (String × String)

/-- Lookup in a `GoStrMap` (Go's `m[k]` returning the value and presence). -/
def goLookup : GoStrMap → String → Option String
  | [], _ => none
  | (k, v) :: rest, key => if k = key then some v else goLookup rest key

/-- Go `delete(m, k)` on a possibly-nil `map[string]string`.  Per the Go
specification, `delete` on a `nil` map is a no-op and never panics, so the
operation is total. -/
def goMapDelete (m : Option GoStrMap) (k : String) : Option GoStrMap :=
  match m with
  | none => none
  | some l => some (l.filter (fun kv => kv.1 != k))

/-- A pod object as the handlers see it (src/main.go:350-356 touches only
`ManagedFields` and `Annotations`; every other field of the record is opaque
to this program and folded into `rest`). -/
structure PodRecord where
  managedFields : List String
  annotations : Option GoStrMap
  rest : String
  deriving DecidableEq

/-- The first annotation key removed by the sanitizer (src/main.go:354). -/
def lastAppliedKey : String := "kubectl.kubernetes.io/last-applied-configuration"

/-- The second annotation key removed by the sanitizer (src/main.go:355). -/
def pspKey : String := "kubernetes.io/psp"

/-- `deleteUnnecessaryFieldsFromPodSpec` (src/main.go:350-356): clears
`ManagedFields` and deletes the two noisy annotation keys. -/
def deleteUnnecessaryFieldsFromPodSpec (pod : PodRecord) : PodRecord :=
  { pod with
    managedFields := [],
    annotations := goMapDelete (goMapDelete pod.annotations lastAppliedKey) pspKey }

theorem goLookup_filter_ne (l : GoStrMap) (key k : String) :
    goLookup (l.filter (fun kv => kv.1 != key)) k =
      if k = key then none else goLookup l k := by
  induction l with
  | nil => simp [goLookup]
  | cons kv rest ih =>
    by_cases hkey : k = key
    · subst hkey
      by_cases hk : kv.1 = k
      · simp [List.filter_cons, hk, ih]
      · simp [List.filter_cons, hk, goLookup, ih]
    · by_cases hk : kv.1 = key
      · have hne : kv.1 ≠ k := by
          rw [hk]
          exact fun h => hkey h.symm
        simp [List.filter_cons, hk, goLookup, hne, ih, hkey, Ne.symm hkey]
      · simp [List.filter_cons, hk, goLookup, ih, hkey]

theorem goMapDelete_comm (m : Option GoStrMap) (k k' : String) :
    goMapDelete (goMapDelete m k) k' = goMapDelete (goMapDelete m k') k := by
  cases m with
  | none => rfl
  | some l =>
    simp only [goMapDelete, List.filter_filter, Option.some.injEq]
    apply List.filter_congr
    intro kv _
    cases h1 : kv.1 != k <;> cases h2 : kv.1 != k' <;> simp [h1, h2]

theorem goMapDelete_idem (m : Option GoStrMap) (k : String) :
    goMapDelete (goMapDelete m k) k = goMapDelete m k := by
  cases m with
  | none => rfl
  | some l =>
    simp only [goMapDelete, List.filter_filter, Option.some.injEq]
    apply List.filter_congr
    intro kv _
    cases h1 : kv.1 != k <;> simp [h1]

/-- C2: for every pod record, the sanitized record's managedFields list is
empty, regardless of the input's managedFields content. -/
theorem sanitize_clears_managedFields (pod : PodRecord) :
    (deleteUnnecessaryFieldsFromPodSpec pod).managedFields = [] := rfl

/-- C7: the sanitizer is idempotent: sanitizing an already-sanitized pod
record is a no-op. -/
theorem sanitize_idem (pod : PodRecord) :
    deleteUnnecessaryFieldsFromPodSpec (deleteUnnecessaryFieldsFromPodSpec pod) =
      deleteUnnecessaryFieldsFromPodSpec pod := by
  unfold deleteUnnecessaryFieldsFromPodSpec
  simp only
  congr 1
  rw [goMapDelete_comm (goMapDelete pod.annotations lastAppliedKey) pspKey lastAppliedKey,
    goMapDelete_idem pod.annotations lastAppliedKey,
    goMapDelete_idem (goMapDelete pod.annotations lastAppliedKey) pspKey]

/-- C8: the sanitizer is total on pod records; in particular on a record with
a nil/absent annotations map it completes and only clears managedFields (Go's
`delete` on a nil map is a no-op, so the panic branch is unreachable). -/
theorem sanitize_total_on_nil_annotations (pod : PodRecord)
    (h : pod.annotations = none) :
    deleteUnnecessaryFieldsFromPodSpec pod = { pod with managedFields := [] } := by
  unfold deleteUnnecessaryFieldsFromPodSpec
  rw [h]
  rfl

/-- C8 witness: a concrete pod record with absent annotations is sanitized
without fault, yielding the record with only managedFields cleared. -/
theorem sanitize_total_on_nil_annotations_witness :
    deleteUnnecessaryFieldsFromPodSpec ⟨["mf1"], none, "spec+status"⟩ =
      ⟨[], none, "spec+status"⟩ :=
  sanitize_total_on_nil_annotations ⟨["mf1"], none, "spec+status"⟩ rfl

/-- C3: on a pod whose annotations hold the two named keys, the sanitizer
removes exactly those two annotation keys, preserves the lookup of every
other annotation key, and leaves every field other than managedFields and
the annotations unchanged. -/
theorem sanitize_removes_exactly_two_keys (pod : PodRecord) (a : GoStrMap)
    (v1 v2 : String) (ha : pod.annotations = some a)
    (h1 : goLookup a lastAppliedKey = some v1)
    (h2 : goLookup a pspKey = some v2) :
    ∃ a', (deleteUnnecessaryFieldsFromPodSpec pod).annotations = some a' ∧
      goLookup a' lastAppliedKey = none ∧
      goLookup a' pspKey = none ∧
      (∀ k, k ≠ lastAppliedKey → k ≠ pspKey → goLookup a' k = goLookup a k) ∧
      (deleteUnnecessaryFieldsFromPodSpec pod).rest = pod.rest := by
  refine ⟨(a.filter (fun kv => kv.1 != lastAppliedKey)).filter (fun kv => kv.1 != pspKey),
    ?_, ?_, ?_, ?_, rfl⟩
  · simp [deleteUnnecessaryFieldsFromPodSpec, ha, goMapDelete]
  · rw [goLookup_filter_ne, goLookup_filter_ne]
    have : lastAppliedKey ≠ pspKey := by decide
    simp [this]
  · rw [goLookup_filter_ne]
    simp
  · intro k hk1 hk2
    rw [goLookup_filter_ne, goLookup_filter_ne]
    simp [hk1, hk2]

/-- A sample annotations map holding both removable keys plus one other. -/
def sampleAnns : GoStrMap :=
  [(lastAppliedKey, "last-applied-json"), ("app", "nginx"), (pspKey, "restricted")]

/-- A sample pod record used as a concrete input in witnesses. -/
def samplePod : PodRecord :=
  { managedFields := ["manager:kubectl"], annotations := some sampleAnns,
    rest := "spec+status" }

/-- C3 witness: the sanitizer applied to the sample pod removes exactly the
two named keys and keeps the `app` annotation and the rest intact. -/
theorem sanitize_removes_exactly_two_keys_witness :
    ∃ a', (deleteUnnecessaryFieldsFromPodSpec samplePod).annotations = some a' ∧
      goLookup a' lastAppliedKey = none ∧
      goLookup a' pspKey = none ∧
      (∀ k, k ≠ lastAppliedKey → k ≠ pspKey → goLookup a' k = goLookup sampleAnns k) ∧
      (deleteUnnecessaryFieldsFromPodSpec samplePod).rest = samplePod.rest :=
  sanitize_removes_exactly_two_keys samplePod sampleAnns "last-applied-json" "restricted"
    rfl (by decide) (by decide)

/-! ## The tool-call handlers (src/main.go:358-409) -/

/-- One value of the untyped Go argument map: a string, or some non-string
JSON value. -/
inductive ArgValue
  | str (s : String)
  | nonString
  deriving DecidableEq

/-- The string-keyed argument map, again as an association list. -/
abbrev ArgMap := List (String × ArgValue)

/-- Go's `args[key].(string)` with the `ok` flag ignored (`v, _ :=`): the
string when the key maps to one, and Go's zero value `""` when the key is
absent or maps to a non-string. -/
def getStringArg : ArgMap → String → String
  | [], _ => ""
  | (k, v) :: rest, key =>
    if k = key then
      match v with
      | .str s => s
      | .nonString => ""
    else getStringArg rest key

/-- `request.Params.Arguments`: an untyped payload that either is a
string-keyed map or is something else, in which case the type assertion in
both handlers fails. -/
inductive Arguments
  | strMap (m : ArgMap)
  | notStrMap
  deriving DecidableEq

/-- A serialized success payload: one pod or a pod list. -/
inductive JsonPayload
  | pod (p : PodRecord)
  | podList (ps : List PodRecord)
  deriving DecidableEq

/-- `*mcp.CallToolResult`: an error result (`NewToolResultError`) or a JSON
success result. -/
inductive ToolResult
  | errorResult (msg : String)
  | jsonResult (j : JsonPayload)
  deriving DecidableEq

/-- The Go return pair `(*mcp.CallToolResult, error)`: `result r` is
`(r, nil)` and `fault e` is `(nil, e)`, the transport-level error path. -/
inductive HandlerReturn
  | result (r : ToolResult)
  | fault (e : String)
  deriving DecidableEq

/-- `mcp.NewToolResultJSON`: serializing plain pod data cannot fail, so the
marshal-error branch (which would produce `HandlerReturn.fault`) is never
taken. -/
def newToolResultJSON (j : JsonPayload) : HandlerReturn :=
  HandlerReturn.result (ToolResult.jsonResult j)

/-- A handler invocation's outcome: the returned pair, and whether the
cluster client was invoked during the call. -/
structure HandlerOutcome where
  ret : HandlerReturn
  clusterCalled : Bool
  deriving DecidableEq

/-- The cluster client's `Pods(ns).Get(ctx, name, ...)` as an oracle from
(namespace, pod name) to a pod or an error. -/
abbrev GetClient := String → String → Except String PodRecord

/-- The cluster client's `Pods("").List(ctx, opts)` as an oracle from the
label selector to a pod list or an error. -/
abbrev ListClient := String → Except String (List PodRecord)

/-- Namespace resolution in `getPodDatailsHandler` (src/main.go:395-399):
empty or missing namespace falls back to `"default"`. -/
def resolveNamespace (m : ArgMap) : String :=
  let ns := getStringArg m "namespace"
  if ns = "" then "default" else ns

/-- `getPodByLabelHandler` (src/main.go:358-386). -/
def getPodByLabelHandler (clusterList : ListClient) (args : Arguments) :
    HandlerOutcome :=
  match args with
  | .notStrMap => ⟨.result (.errorResult "Invalid arguments format"), false⟩
  | .strMap m =>
    let labelSelector := getStringArg m "labelSelector"
    if labelSelector = "" then
      ⟨.result (.errorResult "labelSelector is required"), false⟩
    else
      match clusterList labelSelector with
      | .error e => ⟨.result (.errorResult ("Error getting pods list: " ++ e)), true⟩
      | .ok pods =>
        ⟨newToolResultJSON (.podList (pods.map deleteUnnecessaryFieldsFromPodSpec)), true⟩

/-- `getPodDatailsHandler` (src/main.go:388-409). -/
def getPodDatailsHandler (clusterGet : GetClient) (args : Arguments) :
    HandlerOutcome :=
  match args with
  | .notStrMap => ⟨.result (.errorResult "Invalid arguments format"), false⟩
  | .strMap m =>
    let podName := getStringArg m "podName"
    match clusterGet (resolveNamespace m) podName with
    | .error e => ⟨.result (.errorResult ("Pod not found: " ++ e)), true⟩
    | .ok pod => ⟨newToolResultJSON (.pod (deleteUnnecessaryFieldsFromPodSpec pod)), true⟩

/-- A cluster get oracle that always succeeds with the sample pod. -/
def okGetClient : GetClient := fun _ _ => Except.ok samplePod

/-- A cluster get oracle that always fails. -/
def errGetClient : GetClient := fun _ _ => Except.error "pods \"x\" not found"

/-- A cluster list oracle that always fails. -/
def errListClient : ListClient := fun _ => Except.error "connection refused"

/-- Three distinct sample pods for the list witnesses. -/
def samplePods : List PodRecord :=
  [samplePod,
   { managedFields := [], annotations := none, rest := "pod-b" },
   { managedFields := ["m"], annotations := some [("app", "nginx")], rest := "pod-c" }]

/-- A cluster list oracle that always returns the three sample pods. -/
def threePodsClient : ListClient := fun _ => Except.ok samplePods

/-- C1 counterexample: invoked with `podName = ""`, `getPodDatailsHandler`
still invokes the cluster client's get operation (`clusterCalled = true`),
and when that call succeeds it even returns a success result rather than an
error result — the handler has no empty-name check (src/main.go:394-401). -/
theorem details_empty_name_counterexample :
    (getPodDatailsHandler okGetClient
        (Arguments.strMap [("podName", ArgValue.str "")])).clusterCalled = true ∧
    (getPodDatailsHandler okGetClient
        (Arguments.strMap [("podName", ArgValue.str "")])).ret =
      HandlerReturn.result
        (ToolResult.jsonResult (JsonPayload.pod (deleteUnnecessaryFieldsFromPodSpec samplePod))) :=
  ⟨rfl, rfl⟩

/-- C1 amended: with `podName` empty or absent, the handler always invokes
the cluster client's get operation with the empty pod name and the resolved
namespace; it returns an error ToolResult carrying the underlying message
exactly when that call fails, and a sanitized success result otherwise. -/
theorem details_empty_name_still_calls_cluster (clusterGet : GetClient)
    (m : ArgMap) (h : getStringArg m "podName" = "") :
    (getPodDatailsHandler clusterGet (Arguments.strMap m)).clusterCalled = true ∧
    ((∃ e, clusterGet (resolveNamespace m) "" = Except.error e ∧
        getPodDatailsHandler clusterGet (Arguments.strMap m) =
          ⟨HandlerReturn.result (ToolResult.errorResult ("Pod not found: " ++ e)), true⟩) ∨
     (∃ p, clusterGet (resolveNamespace m) "" = Except.ok p ∧
        getPodDatailsHandler clusterGet (Arguments.strMap m) =
          ⟨HandlerReturn.result
            (ToolResult.jsonResult (JsonPayload.pod (deleteUnnecessaryFieldsFromPodSpec p))), true⟩)) := by
  cases hc : clusterGet (resolveNamespace m) "" with
  | error e =>
    refine ⟨?_, Or.inl ⟨e, rfl, ?_⟩⟩ <;>
      simp [getPodDatailsHandler, h, hc]
  | ok p =>
    refine ⟨?_, Or.inr ⟨p, rfl, ?_⟩⟩ <;>
      simp [getPodDatailsHandler, h, hc, newToolResultJSON]

/-- C1 amended witness: concrete empty-name request against the failing get
oracle: the cluster get is invoked and its message is propagated. -/
theorem details_empty_name_still_calls_cluster_witness :
    (getPodDatailsHandler errGetClient
        (Arguments.strMap [("podName", ArgValue.str "")])).clusterCalled = true :=
  (details_empty_name_still_calls_cluster errGetClient
    [("podName", ArgValue.str "")] rfl).1

/-- C4: when the selector is non-empty and the cluster list call returns
`pods`, the handler returns a success JSON result holding exactly the
sanitized pods, in the cluster client's order: the payload is the element-wise
sanitization of `pods`, has the same length, and agrees index by index. -/
theorem label_handler_success_sanitizes_all (clusterList : ListClient)
    (m : ArgMap) (pods : List PodRecord)
    (hsel : getStringArg m "labelSelector" ≠ "")
    (hok : clusterList (getStringArg m "labelSelector") = Except.ok pods) :
    getPodByLabelHandler clusterList (Arguments.strMap m) =
      ⟨HandlerReturn.result
        (ToolResult.jsonResult (JsonPayload.podList (pods.map deleteUnnecessaryFieldsFromPodSpec))), true⟩ ∧
    (pods.map deleteUnnecessaryFieldsFromPodSpec).length = pods.length ∧
    ∀ i : Nat, (pods.map deleteUnnecessaryFieldsFromPodSpec)[i]? =
      (pods[i]?).map deleteUnnecessaryFieldsFromPodSpec := by
  refine ⟨?_, by simp, by simp⟩
  simp [getPodByLabelHandler, hsel, hok, newToolResultJSON]

/-- C4 witness: a concrete `app=nginx` call against a client returning three
pods yields the success result with the three sanitized pods in order. -/
theorem label_handler_success_sanitizes_all_witness :
    getPodByLabelHandler threePodsClient
        (Arguments.strMap [("labelSelector", ArgValue.str "app=nginx")]) =
      ⟨HandlerReturn.result
        (ToolResult.jsonResult
          (JsonPayload.podList (samplePods.map deleteUnnecessaryFieldsFromPodSpec))), true⟩ :=
  (label_handler_success_sanitizes_all threePodsClient
    [("labelSelector", ArgValue.str "app=nginx")] samplePods (by decide) rfl).1

/-- C5: when the cluster call fails, each handler returns an error ToolResult
whose message contains the underlying error's message, with a nil
transport-level error (a `result`, never a `fault`). -/
theorem handlers_report_cluster_error (clusterGet : GetClient)
    (clusterList : ListClient) (m m2 : ArgMap) (e e2 : String)
    (hg : clusterGet (resolveNamespace m) (getStringArg m "podName") = Except.error e)
    (hsel : getStringArg m2 "labelSelector" ≠ "")
    (hl : clusterList (getStringArg m2 "labelSelector") = Except.error e2) :
    (∃ pre post, getPodDatailsHandler clusterGet (Arguments.strMap m) =
        ⟨HandlerReturn.result (ToolResult.errorResult (pre ++ e ++ post)), true⟩) ∧
    (∃ pre post, getPodByLabelHandler clusterList (Arguments.strMap m2) =
        ⟨HandlerReturn.result (ToolResult.errorResult (pre ++ e2 ++ post)), true⟩) := by
  constructor
  · exact ⟨"Pod not found: ", "", by simp [getPodDatailsHandler, hg, String.append_empty]⟩
  · exact ⟨"Error getting pods list: ", "", by
      simp [getPodByLabelHandler, hsel, hl, String.append_empty]⟩

/-- C5 witness: concrete failing get and list calls produce error results
embedding the oracles' messages. -/
theorem handlers_report_cluster_error_witness :
    ∃ pre post, getPodDatailsHandler errGetClient
        (Arguments.strMap [("podName", ArgValue.str "web")]) =
      ⟨HandlerReturn.result
        (ToolResult.errorResult (pre ++ "pods \"x\" not found" ++ post)), true⟩ :=
  (handlers_report_cluster_error errGetClient errListClient
    [("podName", ArgValue.str "web")] [("labelSelector", ArgValue.str "app=nginx")]
    "pods \"x\" not found" "connection refused" rfl (by decide) rfl).1

/-- C6: with `labelSelector` empty or absent, `getPodByLabelHandler` returns
the error ToolResult stating the requirement and does not invoke the cluster
client (src/main.go:364-367). -/
theorem label_handler_rejects_empty_selector (clusterList : ListClient)
    (m : ArgMap) (h : getStringArg m "labelSelector" = "") :
    getPodByLabelHandler clusterList (Arguments.strMap m) =
      ⟨HandlerReturn.result (ToolResult.errorResult "labelSelector is required"), false⟩ := by
  simp [getPodByLabelHandler, h]

/-- C6 witness: a concrete call with no arguments at all is rejected without
any cluster call. -/
theorem label_handler_rejects_empty_selector_witness :
    getPodByLabelHandler threePodsClient (Arguments.strMap []) =
      ⟨HandlerReturn.result (ToolResult.errorResult "labelSelector is required"), false⟩ :=
  label_handler_rejects_empty_selector threePodsClient [] rfl

/-- C10: when the arguments payload is not a string-keyed map, both handlers
return the error ToolResult "Invalid arguments format" as a `(result, nil)`
pair and make no cluster-API call. -/
theorem handlers_reject_non_map_arguments (clusterGet : GetClient)
    (clusterList : ListClient) :
    getPodDatailsHandler clusterGet Arguments.notStrMap =
      ⟨HandlerReturn.result (ToolResult.errorResult "Invalid arguments format"), false⟩ ∧
    getPodByLabelHandler clusterList Arguments.notStrMap =
      ⟨HandlerReturn.result (ToolResult.errorResult "Invalid arguments format"), false⟩ :=
  ⟨rfl, rfl⟩

/-! ## The Observability Shim (src/main.go:313-335)

Each mux wrapper is a straight-line sequence of metric operations around the
delegated `ServeHTTP` call (which touches no metric), so a completed call to
an endpoint is its fixed trace of metric events. -/

/-- The instrumented inbound endpoints: `/sse`, `/message`, `/` with path
`"/"` (served as SSE), and `/` with any other path (`http.NotFound`). -/
inductive Endpoint
  | sse
  | message
  | root
  | notFoundPath
  deriving DecidableEq

/-- One operation on the process-wide metrics: `activeConnections.Inc()`,
`activeConnections.Dec()`, or `requestsTotal.WithLabelValues(l).Inc()`. -/
inductive MetricEvent
  | gaugeInc
  | gaugeDec
  | counterInc (label : String)
  deriving DecidableEq

/-- The metric-event trace of one completed call to an endpoint, read off the
wrappers: `/sse` and `/` brace the serve with Inc/deferred Dec and count one
request; `/message` only counts the request; a non-root path under `/` is
answered with NotFound and touches no metric. -/
def endpointEvents : Endpoint → List MetricEvent
  | .sse => [.gaugeInc, .counterInc "sse", .gaugeDec]
  | .message => [.counterInc "message"]
  | .root => [.gaugeInc, .counterInc "root", .gaugeDec]
  | .notFoundPath => []

/-- The process-wide metrics state: the `mcp_active_connections` gauge and
the `mcp_requests_total` counter family, indexed by endpoint label. -/
structure Metrics where
  activeConnections : Int
  requestsTotal : String → Nat

/-- Apply one metric operation. -/
def applyEvent (m : Metrics) : MetricEvent → Metrics
  | .gaugeInc => { m with activeConnections := m.activeConnections + 1 }
  | .gaugeDec => { m with activeConnections := m.activeConnections - 1 }
  | .counterInc label =>
    { m with requestsTotal := fun s =>
        if s = label then m.requestsTotal s + 1 else m.requestsTotal s }

/-- Apply a trace of metric operations in order. -/
def applyEvents (m : Metrics) (es : List MetricEvent) : Metrics :=
  es.foldl applyEvent m

/-- The metrics state at process start: gauge 0, all counters 0. -/
def initialMetrics : Metrics :=
  { activeConnections := 0, requestsTotal := fun _ => 0 }

/-- One completed endpoint call applied to a metrics state. -/
def stepCall (m : Metrics) (e : Endpoint) : Metrics :=
  applyEvents m (endpointEvents e)

/-- The metrics state after a sequence of completed endpoint calls. -/
def runCalls (calls : List Endpoint) : Metrics :=
  calls.foldl stepCall initialMetrics

/-- The gauge contribution of one metric event. -/
def gaugeDelta : MetricEvent → Int
  | .gaugeInc => 1
  | .gaugeDec => -1
  | .counterInc _ => 0

theorem applyEvent_activeConnections (m : Metrics) (ev : MetricEvent) :
    (applyEvent m ev).activeConnections = m.activeConnections + gaugeDelta ev := by
  cases ev <;> simp [applyEvent, gaugeDelta, sub_eq_add_neg]

theorem applyEvent_requestsTotal (m : Metrics) (ev : MetricEvent) (l : String) :
    (applyEvent m ev).requestsTotal l =
      m.requestsTotal l + (if ev = MetricEvent.counterInc l then 1 else 0) := by
  cases ev with
  | gaugeInc => simp [applyEvent]
  | gaugeDec => simp [applyEvent]
  | counterInc lab =>
    by_cases h : l = lab
    · simp [applyEvent, h]
    · have h2 : ¬MetricEvent.counterInc lab = MetricEvent.counterInc l := by
        intro hh
        exact h (MetricEvent.counterInc.inj hh).symm
      simp [applyEvent, h, h2]

theorem applyEvents_activeConnections (es : List MetricEvent) :
    ∀ m : Metrics, (applyEvents m es).activeConnections =
      m.activeConnections + (es.map gaugeDelta).sum := by
  induction es with
  | nil => intro m; simp [applyEvents]
  | cons ev rest ih =>
    intro m
    have h1 : applyEvents m (ev :: rest) = applyEvents (applyEvent m ev) rest := rfl
    rw [h1, ih, applyEvent_activeConnections]
    simp
    ring

theorem applyEvents_requestsTotal (es : List MetricEvent) :
    ∀ (m : Metrics) (l : String), (applyEvents m es).requestsTotal l =
      m.requestsTotal l + es.count (MetricEvent.counterInc l) := by
  induction es with
  | nil => intro m l; simp [applyEvents]
  | cons ev rest ih =>
    intro m l
    have h1 : applyEvents m (ev :: rest) = applyEvents (applyEvent m ev) rest := rfl
    rw [h1, ih, applyEvent_requestsTotal, List.count_cons]
    by_cases h : ev = MetricEvent.counterInc l
    · subst h
      simp
      omega
    · have h2 : ¬MetricEvent.counterInc l = ev := fun hh => h hh.symm
      simp [h, h2]

theorem stepCall_activeConnections (m : Metrics) (e : Endpoint) :
    (stepCall m e).activeConnections = m.activeConnections := by
  rw [stepCall, applyEvents_activeConnections]
  cases e <;> simp [endpointEvents, gaugeDelta]

theorem stepCall_requestsTotal (m : Metrics) (e : Endpoint) (l : String) :
    (stepCall m e).requestsTotal l =
      m.requestsTotal l + (endpointEvents e).count (MetricEvent.counterInc l) := by
  rw [stepCall, applyEvents_requestsTotal]

theorem runCallsFrom_activeConnections (calls : List Endpoint) :
    ∀ m : Metrics, (calls.foldl stepCall m).activeConnections =
      m.activeConnections := by
  induction calls with
  | nil => intro m; rfl
  | cons e rest ih =>
    intro m
    have h1 : (e :: rest).foldl stepCall m = rest.foldl stepCall (stepCall m e) := rfl
    rw [h1, ih, stepCall_activeConnections]

theorem runCallsFrom_requestsTotal (label : String) (target : Endpoint)
    (hcount : ∀ e : Endpoint,
      (endpointEvents e).count (MetricEvent.counterInc label) =
        if e = target then 1 else 0)
    (calls : List Endpoint) :
    ∀ m : Metrics, (calls.foldl stepCall m).requestsTotal label =
      m.requestsTotal label + calls.count target := by
  induction calls with
  | nil => intro m; simp
  | cons e rest ih =>
    intro m
    have h1 : (e :: rest).foldl stepCall m = rest.foldl stepCall (stepCall m e) := rfl
    rw [h1, ih, stepCall_requestsTotal, hcount, List.count_cons]
    by_cases h : e = target
    · subst h
      simp
      omega
    · have h2 : ¬target = e := fun hh => h hh.symm
      simp [h, h2]

/-- C9 counterexample: a call to the message endpoint never increments the
active-connection gauge — its whole trace is one counter increment — refuting
the claim that the gauge is incremented on entry on the message endpoint
(src/main.go:320-323 touches only `requestsTotal`). -/
theorem message_endpoint_gauge_counterexample :
    endpointEvents Endpoint.message = [MetricEvent.counterInc "message"] ∧
    MetricEvent.gaugeInc ∉ endpointEvents Endpoint.message ∧
    MetricEvent.gaugeDec ∉ endpointEvents Endpoint.message := by
  refine ⟨rfl, ?_, ?_⟩ <;> decide

/-- C9 amended: the gauge is incremented on entry and decremented on exit on
the sse and root endpoints only, the message endpoint increments just its
request counter, and after any sequence of completed calls the gauge is back
at 0 while each endpoint's counter equals its number of calls. -/
theorem shim_metrics_after_calls (calls : List Endpoint) :
    (endpointEvents Endpoint.sse).head? = some MetricEvent.gaugeInc ∧
    (endpointEvents Endpoint.sse).getLast? = some MetricEvent.gaugeDec ∧
    (endpointEvents Endpoint.root).head? = some MetricEvent.gaugeInc ∧
    (endpointEvents Endpoint.root).getLast? = some MetricEvent.gaugeDec ∧
    endpointEvents Endpoint.message = [MetricEvent.counterInc "message"] ∧
    (runCalls calls).activeConnections = 0 ∧
    (runCalls calls).requestsTotal "sse" = calls.count Endpoint.sse ∧
    (runCalls calls).requestsTotal "message" = calls.count Endpoint.message ∧
    (runCalls calls).requestsTotal "root" = calls.count Endpoint.root := by
  refine ⟨rfl, rfl, rfl, rfl, rfl, ?_, ?_, ?_, ?_⟩
  · rw [runCalls, runCallsFrom_activeConnections]
    rfl
  · rw [runCalls, runCallsFrom_requestsTotal "sse" Endpoint.sse
      (by intro e; cases e <;> decide) calls]
    simp [initialMetrics]
  · rw [runCalls, runCallsFrom_requestsTotal "message" Endpoint.message
      (by intro e; cases e <;> decide) calls]
    simp [initialMetrics]
  · rw [runCalls, runCallsFrom_requestsTotal "root" Endpoint.root
      (by intro e; cases e <;> decide) calls]
    simp [initialMetrics]

end KubeMCP
